import Mathlib

/-
  Verification of the data-cleaning core of the Terry White Chemmart
  product scraper (src/Scraper.py).

  The Python functions are shallowly embedded as executable Lean
  definitions over `List Char` / `String`.  Machine-level notes:
  * `clean_text` delegates HTML stripping to BeautifulSoup (an external
    library).  On markup-free text `BeautifulSoup(s).get_text` returns the
    text itself, so the embedding models the function's own work — the
    whitespace normalisation `" ".join(s.split())` — and treats all content
    as markup-free, which covers every input appearing in the claims.
  * Python regular-expression substitutions (`re.sub`) are embedded as
    hand-compiled scanners with the exact leftmost, non-overlapping,
    greedy-with-forced-commitment semantics of the concrete patterns used
    by the source.
  * Dynamically-typed record fields are embedded as `Field α`
    (absent / null / value), and functions that can raise a Python
    exception return `Except PyErr`.
-/

namespace Scraper

/-- Whitespace characters recognised by Python's `str.split`, `str.strip`
and the regex class `\s` (ASCII range). -/
def pyIsSpace (c : Char) : Bool :=
  c = ' ' || c = '\t' || c = '\n' || c = '\r' || c = '\x0b' || c = '\x0c'

/-- Word characters for the regex word boundary `\b` (`[A-Za-z0-9_]`). -/
def isWordChar (c : Char) : Bool :=
  c.isAlphanum || c = '_'

/-- Accumulator pass of Python's argument-free `str.split`: splits on runs
of whitespace and drops empty pieces. -/
def pyWordsAux : List Char → List Char → List (List Char)
  | acc, [] => if acc.isEmpty then [] else [acc.reverse]
  | acc, c :: cs =>
    if pyIsSpace c then
      if acc.isEmpty then pyWordsAux [] cs else acc.reverse :: pyWordsAux [] cs
    else pyWordsAux (c :: acc) cs

/-- Python `s.split()` on a character list. -/
def pyWords (cs : List Char) : List (List Char) := pyWordsAux [] cs

/-- Join character-list words with a separator (Python `sep.join`). -/
def joinList (sep : List Char) : List (List Char) → List Char
  | [] => []
  | [w] => w
  | w :: ws => w ++ sep ++ joinList sep ws

/-- `clean_text` (Scraper.py line 56): `""` for empty/absent input,
otherwise `" ".join(text.split())` — BeautifulSoup's tag stripping is the
identity on the markup-free text modelled here. -/
def cleanTextStr (s : String) : String :=
  if s.isEmpty then "" else String.mk (joinList [' '] (pyWords s.data))

/-- `clean_text` applied to a Python value that may be `None`
(`if not html_str: return ""`). -/
def cleanTextPy : Option String → String
  | none => ""
  | some s => cleanTextStr s

/-- Is the first character of the remaining text a digit?  (The negative
lookahead `(?!\d)` fails exactly when this holds.) -/
def headIsDigit : List Char → Bool
  | d :: _ => d.isDigit
  | [] => false

/-- `re.sub(r'\.(?!\d)', ',', s)`: a period is kept exactly when the next
character is a digit, otherwise it becomes a comma. -/
def replacePeriods : List Char → List Char
  | [] => []
  | c :: cs => (if c = '.' && !headIsDigit cs then ',' else c) :: replacePeriods cs

/-- Python `str.title` (ASCII model): a letter is uppercased when the
previous character is not a letter, lowercased otherwise. -/
def pyTitleAux : Bool → List Char → List Char
  | _, [] => []
  | prevAlpha, c :: cs =>
    if c.isAlpha then
      (if prevAlpha then c.toLower else c.toUpper) :: pyTitleAux true cs
    else c :: pyTitleAux false cs

/-- Python `str.title` on a character list. -/
def pyTitle (cs : List Char) : List Char := pyTitleAux false cs

/-- One step of `re.sub(r'\bW\b', repl, s)` for a literal word `W`:
scan left to right, replacing non-overlapping whole-word occurrences;
`prev` is the character before the current position (boundary context).
Fuel bounds the scan; each step consumes at least one character. -/
def replaceWordAux (w repl : List Char) : Nat → Option Char → List Char → List Char
  | 0, _, l => l
  | _ + 1, _, [] => []
  | n + 1, prev, c :: cs =>
    if (match prev with | none => true | some p => !isWordChar p)
        && !w.isEmpty
        && w.isPrefixOf (c :: cs)
        && (match (c :: cs).drop w.length with
            | [] => true
            | d :: _ => !isWordChar d) then
      repl ++ replaceWordAux w repl n w.getLast? ((c :: cs).drop w.length)
    else
      c :: replaceWordAux w repl n (some c) cs

/-- `re.sub(r'\bW\b', repl, s)` for a literal word `W`. -/
def replaceWord (w repl : String) (s : List Char) : List Char :=
  replaceWordAux w.data repl.data (s.length + 1) none s

/-- The `common_fixes` table of `clean_ingredients` (Scraper.py line 122),
in declaration order. -/
def commonFixes : List (String × String) :=
  [("And", "and"), ("Or", "or"), ("Of", "of"), ("In", "in"),
   ("The", "the"), ("With", "with"), ("From", "from"), ("To", "to"),
   ("As", "as"), ("By", "by"), ("For", "for"), ("On", "on"),
   ("At", "at"), ("Is", "is"), ("A", "a"), ("An", "an")]

/-- Sequential application of the `common_fixes` substitutions. -/
def applyFixes (cs : List Char) : List Char :=
  commonFixes.foldl (fun acc p => replaceWord p.1 p.2 acc) cs

/-- `re.sub(r',\s*,+', ',', s)`: at a comma followed (after a maximal
whitespace run) by at least one comma, the whole match — comma,
whitespace, maximal comma run — is replaced by a single comma and the
scan resumes after it.  Fuel bounds the scan. -/
def collapseCommasAux : Nat → List Char → List Char
  | 0, l => l
  | _ + 1, [] => []
  | n + 1, ',' :: cs =>
    (match cs.dropWhile pyIsSpace with
     | ',' :: r2 => ',' :: collapseCommasAux n (r2.dropWhile (fun c => c = ','))
     | _ => ',' :: collapseCommasAux n cs)
  | n + 1, c :: cs => c :: collapseCommasAux n cs

/-- `re.sub(r',\s*,+', ',', s)` with sufficient fuel. -/
def collapseCommas (cs : List Char) : List Char :=
  collapseCommasAux (cs.length + 1) cs

/-- `re.sub(r'\s*,\s*', ', ', s)`: a maximal whitespace run followed by a
comma, or a bare comma, together with the following maximal whitespace
run, becomes a comma and a single space; whitespace runs not followed by
a comma are emitted unchanged. -/
def spaceCommasAux : Nat → List Char → List Char
  | 0, l => l
  | _ + 1, [] => []
  | n + 1, c :: cs =>
    if pyIsSpace c then
      (match (c :: cs).dropWhile pyIsSpace with
       | ',' :: r2 => ',' :: ' ' :: spaceCommasAux n (r2.dropWhile pyIsSpace)
       | _ => (c :: cs).takeWhile pyIsSpace
              ++ spaceCommasAux n ((c :: cs).dropWhile pyIsSpace))
    else if c = ',' then
      ',' :: ' ' :: spaceCommasAux n (cs.dropWhile pyIsSpace)
    else c :: spaceCommasAux n cs

/-- `re.sub(r'\s*,\s*', ', ', s)` with sufficient fuel. -/
def spaceCommas (cs : List Char) : List Char :=
  spaceCommasAux (cs.length + 1) cs

/-- `re.sub(r'\s+', ' ', s)`: each maximal whitespace run becomes one
space. -/
def collapseWsAux : Nat → List Char → List Char
  | 0, l => l
  | _ + 1, [] => []
  | n + 1, c :: cs =>
    if pyIsSpace c then ' ' :: collapseWsAux n (cs.dropWhile pyIsSpace)
    else c :: collapseWsAux n cs

/-- `re.sub(r'\s+', ' ', s)` with sufficient fuel. -/
def collapseWs (cs : List Char) : List Char :=
  collapseWsAux (cs.length + 1) cs

/-- Python `str.strip()`: remove leading and trailing whitespace. -/
def trimWs (cs : List Char) : List Char :=
  ((cs.dropWhile pyIsSpace).reverse.dropWhile pyIsSpace).reverse

/-- Python `s.rstrip(', ')`: remove trailing characters from the set
containing the comma and the space. -/
def rstripCommaSpace (cs : List Char) : List Char :=
  (cs.reverse.dropWhile (fun c => c = ',' || c = ' ')).reverse

/-- `clean_ingredients` (Scraper.py line 78): the full cleaning pipeline.
Empty and `"N/A"` inputs are returned unchanged; an input whose cleaned
text is empty yields `"N/A"`; otherwise periods not followed by a digit
become commas, the text is title-cased, the `common_fixes` words are
re-lowercased, comma runs and comma spacing are normalised, whitespace is
collapsed and stripped, and trailing commas and spaces are removed. -/
def cleanIngredients (s : String) : String :=
  if s.isEmpty || s = "N/A" then s
  else
    let t0 := cleanTextStr s
    if t0.isEmpty || (String.mk (trimWs t0.data)).isEmpty then "N/A"
    else
      let t1 := replacePeriods t0.data
      let t2 := pyTitle t1
      let t3 := applyFixes t2
      let t4 := collapseCommas t3
      let t5 := spaceCommas t4
      let t6 := trimWs (collapseWs t5)
      String.mk (rstripCommaSpace t6)

/-- A value stored under a key of a loosely-typed record: the key may be
absent, present with Python's `None`, or present with a typed value. -/
inductive Field (α : Type) where
  | absent : Field α
  | null : Field α
  | val : α → Field α
  deriving DecidableEq, Repr

/-- Python `record.get(key, default)`: the default for an absent key,
`None` for a null value, the value otherwise. -/
def Field.pyGet : Field α → α → Option α
  | .absent, d => some d
  | .null, _ => none
  | .val a, _ => some a

/-- Python `record.get(key)` with no default: `None` for an absent or
null key. -/
def Field.pyGetNone : Field α → Option α
  | .absent => none
  | .null => none
  | .val a => some a

/-- The value `record.get(key, default)` takes when it is not `None`:
the stored value, or the default on absence.  (`f.pyGet d` equals
`some (f.getD d)` whenever `f` is not null.) -/
def Field.getD : Field α → α → α
  | .val a, _ => a
  | _, d => d

/-- True exactly for a present-but-null value. -/
def Field.isNull : Field α → Bool
  | .null => true
  | _ => false

/-- A detail entry of the raw record: `content_label` and `content`. -/
structure DetailObj where
  content_label : Field String
  content : Field String
  deriving DecidableEq, Repr

/-- The `brand` sub-record of the raw record. -/
structure Brand where
  brand_name : Field String
  deriving DecidableEq, Repr

/-- The raw product record returned by the catalog API, restricted to the
keys the core reads.  `price` holds the `str()` rendering of the price
scalar and `attributes` the `str()` rendering of the attributes
structure; `images` holds the value list of the images mapping. -/
structure Product where
  product_id : Field String := .absent
  name : Field String := .absent
  description : Field String := .absent
  upc : Field String := .absent
  price : Field String := .absent
  brand : Field Brand := .absent
  details : Field (List DetailObj) := .absent
  images : Field (List String) := .absent
  attributes : Field String := .absent
  deriving DecidableEq, Repr

/-- Python exceptions that the core can raise on null-valued fields. -/
inductive PyErr where
  | typeError : PyErr
  | attributeError : PyErr
  deriving DecidableEq, Repr

/-- Decidable equality for `Except`, so that concrete runs of the
fallible functions can be checked by `decide`. -/
instance {ε α : Type} [DecidableEq ε] [DecidableEq α] :
    DecidableEq (Except ε α) := fun a b =>
  match a, b with
  | .error e, .error f =>
    if h : e = f then .isTrue (congrArg Except.error h)
    else .isFalse fun hh => h (Except.error.inj hh)
  | .ok x, .ok y =>
    if h : x = y then .isTrue (congrArg Except.ok h)
    else .isFalse fun hh => h (Except.ok.inj hh)
  | .error _, .ok _ => .isFalse fun hh => Except.noConfusion hh
  | .ok _, .error _ => .isFalse fun hh => Except.noConfusion hh

/-- The brand sub-record is not null and carries no null name. -/
def brandOk (p : Product) : Bool :=
  match p.brand with
  | .null => false
  | .absent => true
  | .val b => !b.brand_name.isNull

/-- The detail list is not null and its entries carry no null fields. -/
def detailsOk (p : Product) : Bool :=
  match p.details with
  | .null => false
  | .absent => true
  | .val ds => ds.all fun d => !d.content_label.isNull && !d.content.isNull

/-- A record none of whose present fields (at any depth) is null: the
shape the core is written for. -/
def noNulls (p : Product) : Bool :=
  !p.product_id.isNull && !p.name.isNull && !p.description.isNull
    && !p.upc.isNull && !p.price.isNull && brandOk p && detailsOk p
    && !p.images.isNull && !p.attributes.isNull

/-- The `details` argument the callers pass to `extract_detail`:
`prod.get("details")`, i.e. `None` for an absent or null key. -/
def detailsArg (p : Product) : Option (List DetailObj) :=
  p.details.pyGetNone

/-- The label test `detail_obj.get("content_label") == label` of
`extract_detail` (line 181): an absent or null label never equals the
target string; a string label is compared case-sensitively. -/
def labelMatches (d : DetailObj) (label : String) : Bool :=
  d.content_label.pyGetNone == some label

/-- Scan of the detail list inside `extract_detail`: the first entry whose
`content_label` equals the target label (case-sensitively) yields its
cleaned content. -/
def extractDetailGo (label : String) : List DetailObj → String
  | [] => ""
  | d :: ds =>
    if labelMatches d label then cleanTextPy (d.content.pyGet "")
    else extractDetailGo label ds

/-- `extract_detail` (Scraper.py line 163): empty string for an absent or
empty detail list, otherwise the cleaned content of the first entry with
the given label. -/
def extractDetail (details : Option (List DetailObj)) (label : String) : String :=
  match details with
  | none => ""
  | some [] => ""
  | some ds => extractDetailGo label ds

/-- Token of the skin-concern regexes: a literal character, the gap
`\s*`, or the optional wildcard `.?` (which does not match a newline). -/
inductive PTok where
  | lit : Char → PTok
  | ws : PTok
  | anyOpt : PTok
  deriving DecidableEq, Repr

/-- Literal tokens from a string. -/
def lits (s : String) : List PTok := s.data.map PTok.lit

/-- Match a concern pattern against a prefix of the text, with
backtracking for `\s*` and `.?`.  Fuel bounds the search; each recursive
call shrinks the pattern or the text. -/
def matchPat : Nat → List PTok → List Char → Bool
  | 0, _, _ => false
  | _ + 1, [], _ => true
  | _ + 1, .lit _ :: _, [] => false
  | n + 1, .lit c :: ts, x :: xs => c = x && matchPat n ts xs
  | n + 1, .ws :: ts, [] => matchPat n ts []
  | n + 1, .ws :: ts, x :: xs =>
    matchPat n ts (x :: xs) || (pyIsSpace x && matchPat n (.ws :: ts) xs)
  | n + 1, .anyOpt :: ts, [] => matchPat n ts []
  | n + 1, .anyOpt :: ts, x :: xs =>
    matchPat n ts (x :: xs) || (!(x = '\n') && matchPat n ts xs)

/-- `re.search(pattern, text)` for a concern pattern: does the pattern
match starting at some position of the text? -/
def searchPat (p : List PTok) : List Char → Bool
  | [] => matchPat (p.length + 1) p []
  | x :: xs => matchPat (p.length + (x :: xs).length + 1) p (x :: xs) || searchPat p xs

/-- The `concern_patterns` table of `get_skin_concerns` (Scraper.py
line 234), in declaration order. -/
def concernPatterns : List (String × List (List PTok)) :=
  [("acne", [lits "acne", lits "pimple", lits "breakout", lits "blemish"]),
   ("dry skin", [lits "dry" ++ [.ws] ++ lits "skin", lits "dehydrat",
                 lits "moisturiz", lits "hydrat"]),
   ("oily skin", [lits "oily" ++ [.ws] ++ lits "skin",
                  lits "excess" ++ [.ws] ++ lits "oil", lits "sebum"]),
   ("sensitive skin", [lits "sensitive" ++ [.ws] ++ lits "skin", lits "gentle",
                       lits "sooth", lits "calm"]),
   ("anti-aging", [lits "anti" ++ [.anyOpt] ++ lits "aging", lits "wrinkle",
                   lits "fine" ++ [.ws] ++ lits "line", lits "firm"]),
   ("hyperpigmentation", [lits "hyperpigment", lits "dark" ++ [.ws] ++ lits "spot",
                          lits "discolor"]),
   ("sun protection", [lits "spf", lits "sun" ++ [.ws] ++ lits "protection",
                       lits "sunscreen"]),
   ("rosacea", [lits "rosacea", lits "redness"]),
   ("eczema", [lits "eczema", lits "dermatitis"]),
   ("mature skin", [lits "mature" ++ [.ws] ++ lits "skin",
                    lits "aging" ++ [.ws] ++ lits "skin"]),
   ("dullness", [lits "dull", lits "brighten", lits "radiance", lits "glow"])]

/-- Python `str.lower` (ASCII model). -/
def pyLower (s : String) : List Char := s.data.map Char.toLower

/-- Does any sub-pattern of the category match somewhere in the lowered
text?  (The `break` in the source only stops the scan early; whether the
category is detected is exactly this disjunction.) -/
def categoryHits (t : List Char) (cp : String × List (List PTok)) : Bool :=
  cp.2.any fun p => searchPat p t

/-- One iteration of the concern loop: if any sub-pattern of the category
matches, append the category unless it is already recorded. -/
def addConcern (t : List Char) (acc : List String)
    (cp : String × List (List PTok)) : List String :=
  if categoryHits t cp then
    if cp.1 ∈ acc then acc else acc ++ [cp.1]
  else acc

/-- `get_skin_concerns` (Scraper.py line 213): lowercase the text and
collect, in declaration order, every category one of whose sub-patterns
matches. -/
def getSkinConcerns (text : String) : List String :=
  if text.isEmpty then []
  else concernPatterns.foldl (addConcern (pyLower text)) []

/-- One unit alternative of a size pattern: a literal spelling matched
case-insensitively, or the composite alternative `fl\.?\s*oz`. -/
inductive UnitAlt where
  | plain : String → UnitAlt
  | flOz : UnitAlt
  deriving DecidableEq, Repr

/-- A size pattern `(\d+(?:\.\d+)?)\s*(u1|u2|...)` (with the decimal group
omitted for the count-style patterns), as declared in `size_patterns`
(Scraper.py line 279). -/
structure SizePat where
  allowDec : Bool
  units : List UnitAlt
  deriving DecidableEq, Repr

/-- Case-insensitive literal prefix test (regex `re.IGNORECASE`). -/
def ciPrefix : List Char → List Char → Bool
  | [], _ => true
  | _ :: _, [] => false
  | p :: ps, c :: cs => p.toLower = c.toLower && ciPrefix ps cs

/-- Match one unit alternative at the current position, returning the
consumed slice of the text (the verbatim spelling of the unit). -/
def matchUnitAlt (cs : List Char) : UnitAlt → Option (List Char)
  | .plain u =>
    if ciPrefix u.data cs then some (cs.take u.length) else none
  | .flOz =>
    match cs with
    | f :: l :: r =>
      if f.toLower = 'f' && l.toLower = 'l' then
        let (dot, r1) := match r with
          | '.' :: r0 => (['.'], r0)
          | _ => ([], r)
        let ws := r1.takeWhile pyIsSpace
        let r2 := r1.dropWhile pyIsSpace
        match r2 with
        | o :: z :: _ =>
          if o.toLower = 'o' && z.toLower = 'z' then
            some (f :: l :: dot ++ ws ++ [o, z])
          else none
        | _ => none
      else none
    | _ => none

/-- Match a size pattern anchored at the current position: a maximal digit
run, an optional decimal part when the pattern allows one, a maximal
whitespace run, then the unit alternatives in declared order.  (For these
patterns the greedy runs never need to backtrack: a shorter digit or
whitespace run leaves a character no unit alternative can start with.)
Returns the number group and the verbatim unit slice. -/
def matchSizeAt (p : SizePat) (cs : List Char) : Option (String × String) :=
  let ds := cs.takeWhile Char.isDigit
  if ds.isEmpty then none
  else
    let r1 := cs.drop ds.length
    let (numTail, r2) :=
      if p.allowDec then
        match r1 with
        | '.' :: t =>
          let fs := t.takeWhile Char.isDigit
          if fs.isEmpty then (([] : List Char), r1) else ('.' :: fs, t.drop fs.length)
        | _ => ([], r1)
      else ([], r1)
    let r3 := r2.dropWhile pyIsSpace
    match p.units.findSome? (matchUnitAlt r3) with
    | some u => some (String.mk (ds ++ numTail), String.mk u)
    | none => none

/-- `re.search` for a size pattern: try every start position from the
left, the regex engine's leftmost-match rule. -/
def searchSize (p : SizePat) : List Char → Option (String × String)
  | [] => none
  | c :: cs =>
    match matchSizeAt p (c :: cs) with
    | some r => some r
    | none => searchSize p cs

/-- The `size_patterns` list (Scraper.py line 279), in declared order:
milliliters, grams, ounces, liters, tablets, counts, kilograms. -/
def sizePatterns : List SizePat :=
  [⟨true, [.plain "ml", .plain "mL", .plain "ML"]⟩,
   ⟨true, [.plain "g", .plain "gm", .plain "GM", .plain "gram", .plain "grams"]⟩,
   ⟨true, [.plain "oz", .plain "OZ", .flOz]⟩,
   ⟨true, [.plain "l", .plain "L", .plain "liter", .plain "litre"]⟩,
   ⟨false, [.plain "tablet", .plain "tablets", .plain "caps", .plain "capsule",
            .plain "capsules"]⟩,
   ⟨false, [.plain "count", .plain "ct", .plain "pieces", .plain "pcs"]⟩,
   ⟨true, [.plain "kg", .plain "KG", .plain "kilogram"]⟩]

/-- `search_text_for_patterns` (Scraper.py line 188): `None` for empty
text, otherwise the first pattern (in declared order) with a match. -/
def searchTextForPatterns (text : String) : Option (String × String) :=
  if text.isEmpty then none
  else sizePatterns.findSome? (fun p => searchSize p text.data)

/-- The record with every key absent: the only record our model can form
whose Python dict is falsy (`if not product_data`). -/
def emptyProduct : Product := {}

/-- The detail-content concatenation built eagerly by
`extract_size_volume` (line 293): iterating a null `details` value raises
`TypeError`, and `" ".join` raises `TypeError` when some item is `None`
(a null content); otherwise the contents (absent content defaulting to
`""`) joined with single spaces. -/
def detailContents (p : Product) : Except PyErr String :=
  if p.details.isNull then .error .typeError
  else if (p.details.getD []).any (fun d => d.content.isNull) then
    .error .typeError
  else
    .ok (String.mk (joinList [' ']
      ((p.details.getD []).map fun d => (d.content.getD "").data)))

/-- `str(product_data.get("attributes", {}))`: the rendering is `"{}"` for
an absent key, `"None"` for a null value, and the stored rendering
otherwise. -/
def attrStr (p : Product) : String :=
  match p.attributes with
  | .absent => "\x7b\x7d"
  | .null => "None"
  | .val s => s

/-- The field loop of `extract_size_volume` (line 299): skip falsy fields,
return `number ++ unit` for the first field with a pattern match, `"N/A"`
when no field matches. -/
def sizeFieldLoop : List (Option String) → String
  | [] => "N/A"
  | f :: fs =>
    match f with
    | some s =>
      if s.isEmpty then sizeFieldLoop fs
      else
        match searchTextForPatterns s with
        | some (num, unit) => num ++ unit
        | none => sizeFieldLoop fs
    | none => sizeFieldLoop fs

/-- `extract_size_volume` (Scraper.py line 262): `"N/A"` for a falsy
record, otherwise build the four search fields eagerly (which can raise on
null details or null detail content) and scan them in order with
`search_text_for_patterns`. -/
def extractSizeVolume (p : Product) : Except PyErr String :=
  if p = emptyProduct then .ok "N/A"
  else
    match detailContents p with
    | .error e => .error e
    | .ok dc =>
      .ok (sizeFieldLoop
        [p.name.pyGet "", some dc, p.description.pyGet "", some (attrStr p)])

/-- Substring containment (Python `needle in hay`) on character lists. -/
def containsSub (hay needle : List Char) : Bool :=
  match hay with
  | [] => needle.isEmpty
  | _ :: t => needle.isPrefixOf hay || containsSub t needle

/-- Python `s.replace(old, new)` for a non-empty `old`: replace every
non-overlapping occurrence, scanning left to right.  Fuel bounds the scan;
each step consumes at least one character. -/
def pyReplaceAux (old new : List Char) : Nat → List Char → List Char
  | 0, l => l
  | _ + 1, [] => []
  | n + 1, c :: cs =>
    if !old.isEmpty && old.isPrefixOf (c :: cs) then
      new ++ pyReplaceAux old new n ((c :: cs).drop old.length)
    else c :: pyReplaceAux old new n cs

/-- Python `s.replace(old, new)` with sufficient fuel. -/
def pyReplace (s old new : String) : List Char :=
  pyReplaceAux old.data new.data (s.data.length + 1) s.data

/-- The keyword test of strategy 1 of `extract_product_line_name`
(line 327): does the lowercased label contain one of "line",
"collection", "series", "range"? -/
def labelHasKeyword (label : List Char) : Bool :=
  ["line", "collection", "series", "range"].any fun k =>
    containsSub label k.data

/-- The cleaned content of a detail entry, as strategy 1 computes it
(`clean_text(detail.get("content", ""))`). -/
def contentLine (d : DetailObj) : String :=
  cleanTextPy (d.content.pyGet "")

/-- Strategy 1 of `extract_product_line_name`: walk the details; a null
`content_label` makes `detail.get("content_label", "").lower()` raise
`AttributeError` (`None.lower()`); a detail whose lowered label contains
a keyword and whose cleaned content is non-empty and under 100 characters
is returned at once; otherwise continue. -/
def lineStrategy1 : List DetailObj → Except PyErr (Option String)
  | [] => .ok none
  | d :: ds =>
    if d.content_label.isNull then .error .attributeError
    else if labelHasKeyword (pyLower (d.content_label.getD "")) then
      if !(contentLine d).isEmpty && (contentLine d).length < 100 then
        .ok (some (contentLine d))
      else lineStrategy1 ds
    else lineStrategy1 ds

/-- The qualifying-token test of strategy 2 (line 350): non-empty,
uppercase first character, length above 2. -/
def qualifiesTok (part : List Char) : Bool :=
  match part with
  | [] => false
  | c :: _ => c.isUpper && part.length > 2

/-- The `generic_terms` list of strategy 2 (line 359). -/
def genericTerms : List String :=
  ["cream", "lotion", "serum", "oil", "gel", "cleanser", "moisturiser",
   "spf", "wash"]

/-- Strategy 2 of `extract_product_line_name` given the product and brand
names: remove every occurrence of the brand from the name, strip, split
on whitespace; when more than one part remains, take the qualifying
prefix of the first three parts; a non-empty prefix joined with spaces is
returned unless its lowercase form contains a generic term. -/
def lineStrategy2 (productName brandName : String) : String :=
  let remaining := trimWs (pyReplace productName brandName "")
  let parts := pyWords remaining
  if parts.length > 1 then
    let potential := (parts.take 3).takeWhile qualifiesTok
    if !potential.isEmpty then
      let lineName := joinList [' '] potential
      if genericTerms.any (fun t => containsSub (lineName.map Char.toLower) t.data) then
        "N/A"
      else String.mk lineName
    else "N/A"
  else "N/A"

/-- The strategy-2 stage of `extract_product_line_name` (lines 334-366):
a null `brand` raises `AttributeError` (`None.get("brand_name", "")`); a
falsy brand name (`None` from a null field, or the empty string, also the
default on absence) skips to the sentinel; the membership test
`brand_name in product_name` raises `TypeError` when the name is null;
otherwise strategy 2 runs when the brand name occurs in the product
name. -/
def lineAfterStrat1 (p : Product) : Except PyErr String :=
  if p.brand.isNull then .error .attributeError
  else if (p.brand.getD ⟨.absent⟩).brand_name.isNull then .ok "N/A"
  else if ((p.brand.getD ⟨.absent⟩).brand_name.getD "").isEmpty then .ok "N/A"
  else if p.name.isNull then .error .typeError
  else if containsSub (p.name.getD "").data
      ((p.brand.getD ⟨.absent⟩).brand_name.getD "").data then
    .ok (lineStrategy2 (p.name.getD "") ((p.brand.getD ⟨.absent⟩).brand_name.getD ""))
  else .ok "N/A"

/-- `extract_product_line_name` (Scraper.py line 309): strategy 1 over the
details (iterating a null `details` raises `TypeError`), then the
strategy-2 stage over the name and brand, else `"N/A"`. -/
def extractProductLineName (p : Product) : Except PyErr String :=
  if p.details.isNull then .error .typeError
  else
    match lineStrategy1 (p.details.getD []) with
    | .error e => .error e
    | .ok (some ln) => .ok ln
    | .ok none => lineAfterStrat1 p

/-- A canonical row as Python builds it: column names in insertion order,
each value either a string or Python's `None`. -/
def Row := List (String × Option String)

/-- Python `row.get(key)`: `None` both for a missing key and for a key
holding `None`. -/
def rowGet (row : Row) (key : String) : Option String :=
  match row.lookup key with
  | some v => v
  | none => none

/-- The `required_fields` list of `validate_completeness` (Scraper.py
line 448), in declared order — every row column except
`"Product Line Name"`. -/
def requiredFields : List String :=
  ["Product ID", "Product Name", "Brand Name", "Product Description",
   "Product Images", "Barcode (EAN/UPC)", "Price", "Size/Volume",
   "Ingredients", "Skin Concern", "Source URL"]

/-- The missing-field test of `validate_completeness` (line 455): the
value equals `"N/A"`, or is falsy (`None` or the empty string). -/
def isMissingVal : Option String → Bool
  | none => true
  | some s => s = "N/A" || s.isEmpty

/-- The field loop of `validate_completeness`: first missing required
field, in order. -/
def validateGo (row : Row) : List String → Bool × Option String
  | [] => (true, none)
  | f :: fs =>
    if isMissingVal (rowGet row f) then (false, some f)
    else validateGo row fs

/-- `validate_completeness` (Scraper.py line 446): `(False, field)` for
the first required field that is `"N/A"` or falsy, `(True, None)` when
every required field is populated. -/
def validateCompleteness (row : Row) : Bool × Option String :=
  validateGo row requiredFields

/-- Base URL constant (Scraper.py line 25). -/
def BASE : String := "https://terrywhitechemmart.com.au"

/-- Rendering of a possibly-`None` value inside an f-string
(`f"{general_info} {prod.get('name', '')}"`). -/
def pyFmt : Option String → String
  | none => "None"
  | some s => s

/-- The local `general_info` of the normalisation block (line 507). -/
def generalInfoOf (p : Product) : String :=
  extractDetail (detailsArg p) "General Information"

/-- The local `cleaned_ingredients` (lines 508-511). -/
def cleanedIngredientsOf (p : Product) : String :=
  cleanIngredients (extractDetail (detailsArg p) "Ingredients")

/-- The local `skin_concerns` (lines 513-514): classify the description
concatenated with the f-string rendering of the possibly-`None` name. -/
def concernsOf (p : Product) : List String :=
  getSkinConcerns (generalInfoOf p ++ " " ++ pyFmt (p.name.pyGet ""))

/-- The "Product Description" column value. -/
def descCol (p : Product) : String :=
  if !(generalInfoOf p).isEmpty then generalInfoOf p else "N/A"

/-- The "Product Images" column value: the URLs joined with the pipe
delimiter, or the sentinel for an empty collection. -/
def imagesCol (p : Product) : String :=
  if !(p.images.getD []).isEmpty then
    String.mk (joinList ['|'] ((p.images.getD []).map String.data))
  else "N/A"

/-- The "Ingredients" column value. -/
def ingrCol (p : Product) : String :=
  if !(cleanedIngredientsOf p).isEmpty then cleanedIngredientsOf p else "N/A"

/-- The "Skin Concern" column value. -/
def concernCol (p : Product) : String :=
  if !(concernsOf p).isEmpty then
    String.mk (joinList [',', ' '] ((concernsOf p).map String.data))
  else "N/A"

/-- The per-record normalisation block of `scrape_products` (Scraper.py
lines 505-531): extract every field from the raw record and build the
canonical row, in the dict's insertion order.  Evaluation order follows
the source: the brand lookup (a null `brand` raises `AttributeError`),
then the image list (null `images` raises `AttributeError`), the pure
detail extractions, the size and line-name extractors (which can raise),
then the row literal. -/
def buildRow (p : Product) (slug : String) : Except PyErr Row :=
  if p.brand.isNull then .error .attributeError
  else if p.images.isNull then .error .attributeError
  else
    match extractSizeVolume p with
    | .error e => .error e
    | .ok sizeVolume =>
      match extractProductLineName p with
      | .error e => .error e
      | .ok productLineName =>
        .ok [("Product ID", p.product_id.pyGet "N/A"),
             ("Product Name", p.name.pyGet "N/A"),
             ("Product Line Name", some productLineName),
             ("Brand Name", (p.brand.getD ⟨.absent⟩).brand_name.pyGet "N/A"),
             ("Product Description", some (descCol p)),
             ("Product Images", some (imagesCol p)),
             ("Barcode (EAN/UPC)", p.upc.pyGet "N/A"),
             ("Price", some (pyFmt (p.price.pyGet "N/A"))),
             ("Size/Volume", some sizeVolume),
             ("Ingredients", some (ingrCol p)),
             ("Skin Concern", some (concernCol p)),
             ("Source URL", some (BASE ++ "/shop/product/" ++ slug))]

/-- Value of one row column after a successful `buildRow`, `none` when the
build raised. -/
def rowProbe (e : Except PyErr Row) (key : String) : Option (Option String) :=
  match e with
  | .ok row => some (rowGet row key)
  | .error _ => none

/-- Spec-side description of the period step, following the claim's words:
position by position, a period whose successor is not a digit becomes a
comma and every other character is unchanged. -/
def periodSpecAt (cs : List Char) (i : Nat) : Option Char :=
  (cs[i]?).map fun c =>
    if c = '.' && !((cs[i + 1]?).any Char.isDigit) then ',' else c

theorem replacePeriods_spec (cs : List Char) (i : Nat) :
    (replacePeriods cs)[i]? = periodSpecAt cs i := by
  induction cs generalizing i with
  | nil => simp [replacePeriods, periodSpecAt]
  | cons c rest ih =>
    cases i with
    | zero =>
      simp only [replacePeriods, periodSpecAt, List.getElem?_cons_zero,
        List.getElem?_cons_succ, Option.map_some]
      cases rest <;> simp [headIsDigit]
    | succ n =>
      simp only [replacePeriods, periodSpecAt, List.getElem?_cons_succ]
      exact ih n

/-- First-match characterisation of the detail scan. -/
theorem extractDetailGo_eq (label : String) (ds : List DetailObj) :
    extractDetailGo label ds =
      match ds.find? (fun d => labelMatches d label) with
      | some d => cleanTextPy (d.content.pyGet "")
      | none => "" := by
  induction ds with
  | nil => rfl
  | cons d ds ih =>
    by_cases h : labelMatches d label
    · simp [extractDetailGo, h, List.find?_cons]
    · simp only [Bool.not_eq_true] at h
      simp only [extractDetailGo, h, Bool.false_eq_true, if_false,
        List.find?_cons]
      exact ih

/-- `extract_detail (some ds)` is the plain scan, for every list. -/
theorem extractDetail_some (label : String) (ds : List DetailObj) :
    extractDetail (some ds) label = extractDetailGo label ds := by
  cases ds <;> rfl

/-- First-match characterisation of `validate_completeness`'s loop. -/
theorem validateGo_eq (row : Row) (fs : List String) :
    validateGo row fs =
      match fs.find? (fun f => isMissingVal (rowGet row f)) with
      | some f => (false, some f)
      | none => (true, none) := by
  induction fs with
  | nil => rfl
  | cons f fs ih =>
    by_cases h : isMissingVal (rowGet row f)
    · simp [validateGo, h, List.find?_cons]
    · simp only [Bool.not_eq_true] at h
      simp [validateGo, h, List.find?_cons, ih]

/-- A row with every required field populated except the barcode, which
holds the sentinel. -/
def rowNoBarcode : Row :=
  [("Product ID", some "1001"), ("Product Name", some "Gentle Face Wash"),
   ("Product Line Name", some "Hydra"), ("Brand Name", some "Acme"),
   ("Product Description", some "A gentle daily wash"),
   ("Product Images", some "u1|u2"), ("Barcode (EAN/UPC)", some "N/A"),
   ("Price", some "12.99"), ("Size/Volume", some "50ml"),
   ("Ingredients", some "Aqua"), ("Skin Concern", some "sensitive skin"),
   ("Source URL", some "https://terrywhitechemmart.com.au/shop/product/x")]

/-- A row where only the product line holds the sentinel. -/
def rowLineOnlyNA : Row :=
  [("Product ID", some "1001"), ("Product Name", some "Gentle Face Wash"),
   ("Product Line Name", some "N/A"), ("Brand Name", some "Acme"),
   ("Product Description", some "A gentle daily wash"),
   ("Product Images", some "u1|u2"), ("Barcode (EAN/UPC)", some "9331000000001"),
   ("Price", some "12.99"), ("Size/Volume", some "50ml"),
   ("Ingredients", some "Aqua"), ("Skin Concern", some "sensitive skin"),
   ("Source URL", some "https://terrywhitechemmart.com.au/shop/product/x")]

/-- C1, settled against the code: `clean_ingredients` is NOT idempotent.
On the input "a . . . b" it yields "a, , B", and re-applying it yields
"a, B" — the comma-collapse substitution `,\s*,+` only halves a run of
space-separated commas, so one application can leave a `", ,"` that a
second application removes. -/
theorem claim_C1 :
    cleanIngredients "a . . . b" = "a, , B"
      ∧ cleanIngredients (cleanIngredients "a . . . b") = "a, B"
      ∧ cleanIngredients (cleanIngredients "a . . . b")
          ≠ cleanIngredients "a . . . b" := by
  refine ⟨by decide, by decide, by decide⟩

/-- C5: inside `clean_ingredients`, the period step turns exactly the
periods not immediately followed by a digit into commas and leaves every
other character (including periods before digits) unchanged; and the two
documented examples format as specified, with the decimal "1.5%"
preserved. -/
theorem claim_C5 :
    (∀ (cs : List Char) (i : Nat), (replacePeriods cs)[i]? = periodSpecAt cs i)
      ∧ cleanIngredients "GLYCERIN (1.5%), WATER. SODIUM CHLORIDE." =
          "Glycerin (1.5%), Water, Sodium Chloride"
      ∧ cleanIngredients "AQUA, GLYCERIN, SODIUM LAURYL SULFATE. FRAGRANCE." =
          "Aqua, Glycerin, Sodium Lauryl Sulfate, Fragrance" :=
  ⟨replacePeriods_spec, by decide, by decide⟩

/-- C7: `validate_completeness` returns `false` with the first required
field (in declared order) whose value is the sentinel or falsy and
`(true, none)` otherwise; the product line is not a required field; a row
missing only the barcode reports the barcode, and a row whose only
sentinel is the product line passes. -/
theorem claim_C7 :
    (∀ row : Row, validateCompleteness row =
        match requiredFields.find? (fun f => isMissingVal (rowGet row f)) with
        | some f => (false, some f)
        | none => (true, none))
      ∧ "Product Line Name" ∉ requiredFields
      ∧ validateCompleteness rowNoBarcode = (false, some "Barcode (EAN/UPC)")
      ∧ validateCompleteness rowLineOnlyNA = (true, none) :=
  ⟨fun row => validateGo_eq row requiredFields, by decide, by decide, by decide⟩

/-- C9: `extract_detail` returns the sanitized content of the first
detail whose label equals the target exactly (even if a later detail
carries the same label), and the empty string when the detail list is
absent, empty, or has no matching label. -/
theorem claim_C9 (details : Option (List DetailObj)) (label : String) :
    extractDetail details label =
      match details with
      | none => ""
      | some ds =>
        match ds.find? (fun d => labelMatches d label) with
        | some d => cleanTextPy (d.content.pyGet "")
        | none => "" := by
  cases details with
  | none => rfl
  | some ds => rw [extractDetail_some, extractDetailGo_eq]

/-- C10: when the first label-matching detail has content that sanitizes
to the empty string (absent, null, or whitespace-only), `extract_detail`
returns the empty string — indistinguishable from no match at all — and
any later details with the same label are ignored, whatever they hold. -/
theorem claim_C10 (pre : List DetailObj) (d : DetailObj) (post : List DetailObj)
    (label : String)
    (hpre : pre.all (fun x => !labelMatches x label) = true)
    (hd : labelMatches d label = true)
    (hempty : cleanTextPy (d.content.pyGet "") = "") :
    extractDetail (some (pre ++ d :: post)) label = "" := by
  rw [extractDetail_some]
  induction pre with
  | nil => simp [extractDetailGo, hd, hempty]
  | cons x xs ih =>
    simp only [List.all_cons, Bool.and_eq_true] at hpre
    have hx : labelMatches x label = false := by simpa using hpre.1
    simpa [extractDetailGo, hx] using ih hpre.2

/-- C10 witness: a first "Ingredients" detail with absent content makes
`extract_detail` return the empty string even though a later detail with
the same label holds real content. -/
theorem claim_C10_witness :
    extractDetail
      (some [⟨.val "Ingredients", .absent⟩, ⟨.val "Ingredients", .val "Aqua"⟩])
      "Ingredients" = "" :=
  claim_C10 [] ⟨.val "Ingredients", .absent⟩ [⟨.val "Ingredients", .val "Aqua"⟩]
    "Ingredients" (by decide) (by decide) (by decide)

/-- The concern fold appends, in declaration order, exactly the names of
the categories with a matching sub-pattern, provided the category names
are distinct and none is already in the accumulator. -/
theorem foldl_addConcern (t : List Char) :
    ∀ (l : List (String × List (List PTok))) (acc : List String),
      (l.map Prod.fst).Nodup → (∀ x ∈ l, x.1 ∉ acc) →
      l.foldl (addConcern t) acc = acc ++ (l.filter (categoryHits t)).map Prod.fst
  | [], acc, _, _ => by simp
  | cp :: rest, acc, hnd, hacc => by
    simp only [List.map_cons, List.nodup_cons] at hnd
    rw [List.foldl_cons]
    by_cases hit : categoryHits t cp
    · have hnotin : cp.1 ∉ acc := hacc cp (by simp)
      have hstep : addConcern t acc cp = acc ++ [cp.1] := by
        simp [addConcern, hit, hnotin]
      rw [hstep, foldl_addConcern t rest (acc ++ [cp.1]) hnd.2 ?hrest]
      · simp [List.filter_cons, hit]
      case hrest =>
        intro x hx
        simp only [List.mem_append, List.mem_singleton]
        rintro (h | h)
        · exact hacc x (by simp [hx]) h
        · exact hnd.1 (h ▸ List.mem_map_of_mem Prod.fst hx)
    · have hstep : addConcern t acc cp = acc := by
        simp [addConcern, hit]
      rw [hstep, foldl_addConcern t rest acc hnd.2 fun x hx => hacc x (by simp [hx])]
      simp [List.filter_cons, hit]

/-- C8: `get_skin_concerns` lowercases the text and returns a
duplicate-free list containing a category exactly when one of its
sub-patterns matches the lowered text, in the fixed declaration order of
the categories, regardless of where the matches occur. -/
theorem claim_C8 (text : String) :
    getSkinConcerns text =
        (concernPatterns.filter (categoryHits (pyLower text))).map Prod.fst
      ∧ (getSkinConcerns text).Nodup := by
  have hmain : getSkinConcerns text =
      (concernPatterns.filter (categoryHits (pyLower text))).map Prod.fst := by
    by_cases he : text.isEmpty
    · have ht : text = "" := (String.isEmpty_iff text).mp he
      subst ht
      have hf : (concernPatterns.filter (categoryHits (pyLower ""))).map Prod.fst
          = [] := by decide
      rw [hf, getSkinConcerns, if_pos he]
    · rw [getSkinConcerns, if_neg he]
      rw [foldl_addConcern (pyLower text) concernPatterns [] (by decide)
        (by simp)]
      simp
  refine ⟨hmain, ?_⟩
  rw [hmain]
  exact ((by decide : (concernPatterns.map Prod.fst).Nodup)).sublist
    ((List.filter_sublist concernPatterns).map Prod.fst)

/-- Spec-side rendering of the concatenated detail contents. -/
def detailTexts (p : Product) : String :=
  String.mk (joinList [' ']
    ((p.details.getD []).map fun d => (d.content.getD "").data))

/-- All size patterns tried in declared order against one text. -/
def searchAllPatterns (s : String) : Option (String × String) :=
  sizePatterns.findSome? fun p => searchSize p s.data

/-- Spec-side description of the size search order: product name,
concatenated detail contents, description, stringified attributes. -/
def sizeSources (p : Product) : List String :=
  [p.name.getD "", detailTexts p, p.description.getD "", attrStr p]

/-- Spec-side description of `extract_size_volume` on a well-formed
record, following the claim's words: the first source/pattern combination
that matches yields the number concatenated with the verbatim unit;
otherwise the sentinel. -/
def sizeSpec (p : Product) : String :=
  match (sizeSources p).findSome? searchAllPatterns with
  | some (num, unit) => num ++ unit
  | none => "N/A"

theorem pyGet_of_not_null {α : Type} (f : Field α) (d : α)
    (h : f.isNull = false) : f.pyGet d = some (f.getD d) := by
  cases f <;> simp_all [Field.pyGet, Field.isNull, Field.getD]

theorem detailsOk_not_null (p : Product) (hdet : detailsOk p = true) :
    p.details.isNull = false := by
  cases hd : p.details <;> simp_all [detailsOk, Field.isNull]

theorem detailsOk_fields (p : Product) (hdet : detailsOk p = true) :
    ∀ d ∈ p.details.getD [], d.content_label.isNull = false
      ∧ d.content.isNull = false := by
  intro d hdm
  cases hd : p.details with
  | null => rw [detailsOk, hd] at hdet; exact absurd hdet (by simp)
  | absent => rw [hd] at hdm; exact absurd hdm (by simp [Field.getD])
  | val ds =>
    rw [detailsOk, hd] at hdet
    have hdet2 : (ds.all fun d =>
        !d.content_label.isNull && !d.content.isNull) = true := hdet
    rw [hd] at hdm
    have := List.all_eq_true.mp hdet2 d (by simpa [Field.getD] using hdm)
    constructor
    · simpa using (by simpa using this : _ ∧ _).1
    · simpa using (by simpa using this : _ ∧ _).2

theorem detailContents_ok (p : Product) (h : noNulls p = true) :
    detailContents p = .ok (detailTexts p) := by
  have hdet : detailsOk p = true := by
    simp only [noNulls, Bool.and_eq_true] at h
    exact h.1.1.2
  have hnn : p.details.isNull = false := detailsOk_not_null p hdet
  have hany : ((p.details.getD []).any fun d => d.content.isNull) = false := by
    rw [List.any_eq_false]
    intro d hdm
    simp [(detailsOk_fields p hdet d hdm).2]
  unfold detailContents
  rw [hnn, hany]
  rfl

theorem searchAllPatterns_of_empty (s : String) (h : s.isEmpty = true) :
    searchAllPatterns s = none := by
  rw [(String.isEmpty_iff s).mp h]
  decide

theorem sizeFieldLoop_map_some (ss : List String) :
    sizeFieldLoop (ss.map some) =
      match ss.findSome? searchAllPatterns with
      | some (num, unit) => num ++ unit
      | none => "N/A" := by
  induction ss with
  | nil => rfl
  | cons s rest ih =>
    rw [List.map_cons, List.findSome?_cons]
    simp only [sizeFieldLoop]
    by_cases he : s.isEmpty
    · rw [searchAllPatterns_of_empty s he, if_pos he]
      exact ih
    · rw [if_neg he]
      simp only [searchTextForPatterns]
      rw [if_neg he]
      cases hm : searchAllPatterns s with
      | some r =>
        obtain ⟨n, u⟩ := r
        simp only [searchAllPatterns] at hm
        rw [hm]
      | none =>
        simp only [searchAllPatterns] at hm
        rw [hm]
        exact ih

/-- Component facts of a well-formed record. -/
theorem noNulls_parts (p : Product) (h : noNulls p = true) :
    p.product_id.isNull = false ∧ p.name.isNull = false
      ∧ p.description.isNull = false ∧ p.upc.isNull = false
      ∧ p.price.isNull = false ∧ brandOk p = true ∧ detailsOk p = true
      ∧ p.images.isNull = false ∧ p.attributes.isNull = false := by
  simp only [noNulls, Bool.and_eq_true] at h
  obtain ⟨⟨⟨⟨⟨⟨⟨⟨h1, h2⟩, h3⟩, h4⟩, h5⟩, h6⟩, h7⟩, h8⟩, h9⟩ := h
  exact ⟨by simpa using h1, by simpa using h2, by simpa using h3,
    by simpa using h4, by simpa using h5, h6, h7, by simpa using h8,
    by simpa using h9⟩

/-- On a well-formed record, `extract_size_volume` succeeds and computes
exactly the spec-side source/pattern search. -/
theorem sizeOk (p : Product) (h : noNulls p = true) :
    extractSizeVolume p = .ok (sizeSpec p) := by
  obtain ⟨-, hname, hdesc, -, -, -, -, -, -⟩ := noNulls_parts p h
  by_cases hp : p = emptyProduct
  · subst hp
    have hs : sizeSpec emptyProduct = "N/A" := by decide
    rw [hs]
    rfl
  · have hstep : extractSizeVolume p =
        .ok (sizeFieldLoop [p.name.pyGet "", some (detailTexts p),
          p.description.pyGet "", some (attrStr p)]) := by
      unfold extractSizeVolume
      rw [if_neg hp, detailContents_ok p h]
    rw [hstep, pyGet_of_not_null p.name "" hname,
      pyGet_of_not_null p.description "" hdesc]
    have hlist : [some (p.name.getD ""), some (detailTexts p),
        some (p.description.getD ""), some (attrStr p)]
          = (sizeSources p).map some := rfl
    rw [hlist, sizeFieldLoop_map_some]
    rfl

/-- C6: on a well-formed record, `extract_size_volume` searches name,
concatenated detail contents, description, then stringified attributes,
trying all unit patterns in declared order within each source, and
returns the first matched number concatenated with the verbatim unit
token, or the sentinel when nothing matches; in particular a record named
"Moisturizing Cream 50ml" yields "50ml". -/
theorem claim_C6 :
    (∀ p : Product, noNulls p = true → extractSizeVolume p = .ok (sizeSpec p))
      ∧ extractSizeVolume { name := Field.val "Moisturizing Cream 50ml" } =
          .ok "50ml" :=
  ⟨sizeOk, by decide⟩

/-- C6 witness: the characterisation applied to the concrete
"Moisturizing Cream 50ml" record. -/
theorem claim_C6_witness :
    noNulls { name := Field.val "Moisturizing Cream 50ml" } = true
      ∧ extractSizeVolume { name := Field.val "Moisturizing Cream 50ml" } =
          .ok (sizeSpec { name := Field.val "Moisturizing Cream 50ml" }) :=
  ⟨by decide, claim_C6.1 _ (by decide)⟩

/-- Did the computation succeed (no Python exception)? -/
def isOkE {α : Type} : Except PyErr α → Bool
  | .ok _ => true
  | .error _ => false

/-- Unfolding equation of strategy 1 at a cons cell. -/
theorem lineStrategy1_cons (d : DetailObj) (ds : List DetailObj) :
    lineStrategy1 (d :: ds) =
      if d.content_label.isNull then .error .attributeError
      else if labelHasKeyword (pyLower (d.content_label.getD "")) then
        if !(contentLine d).isEmpty && (contentLine d).length < 100 then
          .ok (some (contentLine d))
        else lineStrategy1 ds
      else lineStrategy1 ds := rfl

/-- Strategy 1 never raises when no detail label is null. -/
theorem lineStrategy1_ok (ds : List DetailObj)
    (h : ∀ d ∈ ds, d.content_label.isNull = false) :
    ∃ r, lineStrategy1 ds = .ok r := by
  induction ds with
  | nil => exact ⟨none, rfl⟩
  | cons d rest ih =>
    have hdl : d.content_label.isNull = false := h d (by simp)
    obtain ⟨r, hr⟩ := ih fun x hx => h x (by simp [hx])
    rw [lineStrategy1_cons, hdl]
    simp only [Bool.false_eq_true, if_false]
    split_ifs
    · exact ⟨some (contentLine d), rfl⟩
    · exact ⟨r, hr⟩
    · exact ⟨r, hr⟩

/-- Unfolding equation of the strategy-2 stage when the brand is a proper
sub-record. -/
theorem lineAfterStrat1_val (p : Product) (b : Brand) (hb : p.brand = .val b) :
    lineAfterStrat1 p =
      if b.brand_name.isNull then .ok "N/A"
      else if (b.brand_name.getD "").isEmpty then .ok "N/A"
      else if p.name.isNull then .error .typeError
      else if containsSub (p.name.getD "").data (b.brand_name.getD "").data then
        .ok (lineStrategy2 (p.name.getD "") (b.brand_name.getD ""))
      else .ok "N/A" := by
  unfold lineAfterStrat1
  rw [hb]
  rfl

/-- On a well-formed record, `extract_product_line_name` succeeds. -/
theorem lineOk (p : Product) (h : noNulls p = true) :
    ∃ r, extractProductLineName p = .ok r := by
  obtain ⟨-, hname, -, -, -, hbrand, hdet, -, -⟩ := noNulls_parts p h
  have hdnn : p.details.isNull = false := detailsOk_not_null p hdet
  obtain ⟨r, hr⟩ := lineStrategy1_ok (p.details.getD [])
    (fun d hdm => (detailsOk_fields p hdet d hdm).1)
  unfold extractProductLineName
  rw [hdnn]
  simp only [Bool.false_eq_true, if_false]
  rw [hr]
  cases r with
  | some ln => exact ⟨ln, rfl⟩
  | none =>
    show ∃ r2, lineAfterStrat1 p = .ok r2
    cases hb : p.brand with
    | null => rw [brandOk, hb] at hbrand; exact absurd hbrand (by simp)
    | absent =>
      refine ⟨"N/A", ?_⟩
      unfold lineAfterStrat1
      rw [hb]
      rfl
    | val b =>
      rw [brandOk, hb] at hbrand
      have hbn : b.brand_name.isNull = false := by
        simpa using (hbrand : (!b.brand_name.isNull) = true)
      rw [lineAfterStrat1_val p b hb, hbn]
      simp only [Bool.false_eq_true, if_false]
      by_cases hbe : (b.brand_name.getD "").isEmpty
      · exact ⟨"N/A", by rw [if_pos hbe]⟩
      · rw [if_neg hbe, hname]
        simp only [Bool.false_eq_true, if_false]
        by_cases hsub : containsSub (p.name.getD "").data
            (b.brand_name.getD "").data
        · exact ⟨lineStrategy2 (p.name.getD "") (b.brand_name.getD ""),
            by rw [if_pos hsub]⟩
        · exact ⟨"N/A", by rw [if_neg hsub]⟩

/-- C2, amended: on a record whose present fields are non-null, the two
record-level extractors raise no exception (the remaining core functions
are total by construction); null-valued `details`, `brand` or `name`
fields, however, do raise — see the counterexample. -/
theorem claim_C2 (p : Product) (h : noNulls p = true) :
    isOkE (extractSizeVolume p) = true
      ∧ isOkE (extractProductLineName p) = true := by
  constructor
  · rw [sizeOk p h]
    rfl
  · obtain ⟨r, hr⟩ := lineOk p h
    rw [hr]
    rfl

/-- C2 counterexample: a record whose `details` key holds a null value
makes both `extract_product_line_name` (iteration over `None`) and
`extract_size_volume` (list comprehension over `None`) raise `TypeError`,
contradicting the claim that the core never raises for null-valued
fields. -/
theorem claim_C2_counterexample :
    extractProductLineName { details := Field.null } = .error .typeError
      ∧ extractSizeVolume
          { details := Field.null, name := Field.val "Moisturizing Cream 50ml" }
          = .error .typeError := by
  exact ⟨by decide, by decide⟩

/-- C2 witness: a concrete well-formed record on which both extractors
succeed. -/
theorem claim_C2_witness :
    isOkE (extractSizeVolume
        { name := Field.val "Acme Hydra Boost gel 50ml",
          brand := Field.val ⟨Field.val "Acme"⟩,
          details := Field.val [⟨Field.val "Ingredients", Field.val "Aqua"⟩] })
        = true
      ∧ isOkE (extractProductLineName
          { name := Field.val "Acme Hydra Boost gel 50ml",
            brand := Field.val ⟨Field.val "Acme"⟩,
            details := Field.val [⟨Field.val "Ingredients", Field.val "Aqua"⟩] })
          = true :=
  claim_C2 _ (by decide)

/-- Does a detail hit strategy 1: its lowered label contains one of the
keywords and its cleaned content is non-empty and under 100 characters? -/
def strat1Hit (d : DetailObj) : Bool :=
  labelHasKeyword (pyLower (d.content_label.getD ""))
    && (!(contentLine d).isEmpty && (contentLine d).length < 100)

/-- When no detail hits strategy 1 (and no label is null), the strategy-1
scan falls through. -/
theorem lineStrategy1_none (ds : List DetailObj)
    (hl : ∀ d ∈ ds, d.content_label.isNull = false)
    (hmiss : (ds.all fun d => !strat1Hit d) = true) :
    lineStrategy1 ds = .ok none := by
  induction ds with
  | nil => rfl
  | cons d rest ih =>
    simp only [List.all_cons, Bool.and_eq_true] at hmiss
    have hdl : d.content_label.isNull = false := hl d (by simp)
    have hdh : strat1Hit d = false := by simpa using hmiss.1
    rw [lineStrategy1_cons, hdl]
    simp only [Bool.false_eq_true, if_false]
    by_cases hk : labelHasKeyword (pyLower (d.content_label.getD ""))
    · have hc : (!(contentLine d).isEmpty
          && decide ((contentLine d).length < 100)) = false := by
        rw [strat1Hit, hk] at hdh
        simpa using hdh
      rw [if_pos hk, hc]
      simp only [Bool.false_eq_true, if_false]
      exact ih (fun x hx => hl x (by simp [hx])) hmiss.2
    · rw [if_neg hk]
      exact ih (fun x hx => hl x (by simp [hx])) hmiss.2

/-- The brand name as strategy 2 reads it:
`product_data.get("brand", {}).get("brand_name", "")` on a non-null
brand. -/
def brandNameOf (p : Product) : String :=
  (p.brand.getD ⟨Field.absent⟩).brand_name.getD ""

/-- Modelled from the claim's words (strategy 2 as the claim describes
it): remove the brand substring from the name, split the remainder on
whitespace, collect the contiguous prefix of up to 3 tokens that are
capitalized and longer than 2 characters, and — when at least one was
collected — return the space-joined candidate unless it case-insensitively
contains a generic term, in which case (or when none was collected)
return the sentinel.  Unlike the code, no requirement that the remainder
split into more than one token. -/
def lineClaimStrategy2 (productName brandName : String) : String :=
  let parts := pyWords (trimWs (pyReplace productName brandName ""))
  let potential := (parts.take 3).takeWhile qualifiesTok
  if !potential.isEmpty then
    let lineName := joinList [' '] potential
    if genericTerms.any (fun t => containsSub (lineName.map Char.toLower) t.data) then
      "N/A"
    else String.mk lineName
  else "N/A"

/-- With more than one token in the brand-stripped remainder, the code's
strategy 2 computes exactly the claim's description. -/
theorem lineStrategy2_eq_claim (pn bn : String)
    (hlen : 1 < (pyWords (trimWs (pyReplace pn bn ""))).length) :
    lineStrategy2 pn bn = lineClaimStrategy2 pn bn := by
  simp only [lineStrategy2, lineClaimStrategy2]
  rw [if_pos hlen]

/-- C4, amended: when strategy 1 finds nothing, the brand name is a
non-empty substring of the product name, AND the brand-stripped remainder
splits into more than one token (a condition the source imposes at line
344 that the claim omits), `extract_product_line_name` returns exactly
the claim's described strategy-2 result: the qualifying prefix of up to 3
tokens joined with spaces, generic-term candidates demoted to the
sentinel. -/
theorem claim_C4 (p : Product) (h : noNulls p = true)
    (h1 : ((p.details.getD []).all fun d => !strat1Hit d) = true)
    (hbe : (brandNameOf p).isEmpty = false)
    (hsub : containsSub (p.name.getD "").data (brandNameOf p).data = true)
    (hlen : 1 < (pyWords (trimWs
      (pyReplace (p.name.getD "") (brandNameOf p) ""))).length) :
    extractProductLineName p =
      .ok (lineClaimStrategy2 (p.name.getD "") (brandNameOf p)) := by
  obtain ⟨-, hname, -, -, -, hbrand, hdet, -, -⟩ := noNulls_parts p h
  have hdnn : p.details.isNull = false := detailsOk_not_null p hdet
  have hs1 : lineStrategy1 (p.details.getD []) = .ok none :=
    lineStrategy1_none _ (fun d hdm => (detailsOk_fields p hdet d hdm).1) h1
  unfold extractProductLineName
  rw [hdnn]
  simp only [Bool.false_eq_true, if_false]
  rw [hs1]
  show lineAfterStrat1 p = .ok (lineClaimStrategy2 (p.name.getD "") (brandNameOf p))
  cases hb : p.brand with
  | null => rw [brandOk, hb] at hbrand; exact absurd hbrand (by simp)
  | absent =>
    exfalso
    have hz : brandNameOf p = "" := by simp [brandNameOf, hb, Field.getD]
    rw [hz] at hbe
    exact absurd hbe (by decide)
  | val b =>
    have hbnof : brandNameOf p = b.brand_name.getD "" := by
      simp [brandNameOf, hb, Field.getD]
    have hbn : b.brand_name.isNull = false := by
      cases hc : b.brand_name with
      | null =>
        rw [hbnof, hc] at hbe
        exact absurd hbe (by decide)
      | absent => rfl
      | val s => rfl
    rw [lineAfterStrat1_val p b hb, hbn]
    simp only [Bool.false_eq_true, if_false]
    rw [hbnof] at hbe hsub hlen
    rw [if_neg (by simp [hbe]), hname]
    simp only [Bool.false_eq_true, if_false]
    rw [if_pos hsub, hbnof, lineStrategy2_eq_claim _ _ hlen]

/-- The record exhibiting the missing condition of C4: the brand-stripped
remainder is the single qualifying token "Hydro". -/
def lineCERecord : Product :=
  { name := Field.val "Acme Hydro", brand := Field.val ⟨Field.val "Acme"⟩,
    details := Field.val [] }

/-- C4 counterexample: on a record satisfying every hypothesis the claim
states (strategy 1 finds nothing, the brand is a non-empty substring of
the name, and one qualifying non-generic token "Hydro" is collected), the
claim predicts the candidate "Hydro", but the code returns the sentinel
because the remainder splits into only one token. -/
theorem claim_C4_counterexample :
    noNulls lineCERecord = true
      ∧ ((lineCERecord.details.getD []).all fun d => !strat1Hit d) = true
      ∧ (brandNameOf lineCERecord).isEmpty = false
      ∧ containsSub (lineCERecord.name.getD "").data
          (brandNameOf lineCERecord).data = true
      ∧ lineClaimStrategy2 (lineCERecord.name.getD "")
          (brandNameOf lineCERecord) = "Hydro"
      ∧ extractProductLineName lineCERecord = .ok "N/A" := by
  refine ⟨by decide, by decide, by decide, by decide, by decide, by decide⟩

/-- The record used to witness the amended C4. -/
def lineWitnessRecord : Product :=
  { name := Field.val "Acme Hydra Boost gel",
    brand := Field.val ⟨Field.val "Acme"⟩, details := Field.val [] }

/-- C4 witness: the amended claim applied to a concrete record whose
remainder "Hydra Boost gel" has more than one token. -/
theorem claim_C4_witness :
    extractProductLineName lineWitnessRecord =
      .ok (lineClaimStrategy2 (lineWitnessRecord.name.getD "")
        (brandNameOf lineWitnessRecord)) :=
  claim_C4 lineWitnessRecord (by decide) (by decide) (by decide) (by decide)
    (by decide)

/-- The "Brand Name" column value on a non-null brand path. -/
def brandNameNA (p : Product) : String :=
  (p.brand.getD ⟨Field.absent⟩).brand_name.getD "N/A"

/-- The canonical row a well-formed record produces, with the line-name
and size values passed in. -/
def rowOf (p : Product) (slug ln sz : String) : Row :=
  [("Product ID", some (p.product_id.getD "N/A")),
   ("Product Name", some (p.name.getD "N/A")),
   ("Product Line Name", some ln),
   ("Brand Name", some (brandNameNA p)),
   ("Product Description", some (descCol p)),
   ("Product Images", some (imagesCol p)),
   ("Barcode (EAN/UPC)", some (p.upc.getD "N/A")),
   ("Price", some (p.price.getD "N/A")),
   ("Size/Volume", some sz),
   ("Ingredients", some (ingrCol p)),
   ("Skin Concern", some (concernCol p)),
   ("Source URL", some (BASE ++ "/shop/product/" ++ slug))]

/-- On a well-formed record the normalisation block succeeds and produces
exactly `rowOf`. -/
theorem buildRow_ok (p : Product) (slug : String) (h : noNulls p = true) :
    ∃ ln, extractProductLineName p = .ok ln
      ∧ buildRow p slug = .ok (rowOf p slug ln (sizeSpec p)) := by
  obtain ⟨hpid, hname, -, hupc, hprice, hbrand, -, himg, -⟩ := noNulls_parts p h
  obtain ⟨ln, hln⟩ := lineOk p h
  refine ⟨ln, hln, ?_⟩
  have hbnn : p.brand.isNull = false := by
    cases hb : p.brand <;> simp_all [brandOk, Field.isNull]
  have hbrn : (p.brand.getD ⟨Field.absent⟩).brand_name.isNull = false := by
    cases hb : p.brand with
    | null => rw [brandOk, hb] at hbrand; exact absurd hbrand (by simp)
    | absent => rfl
    | val b =>
      rw [brandOk, hb] at hbrand
      simp only [Field.getD]
      simpa using (hbrand : (!b.brand_name.isNull) = true)
  unfold buildRow
  rw [hbnn, himg]
  simp only [Bool.false_eq_true, if_false]
  rw [sizeOk p h, hln, pyGet_of_not_null p.product_id "N/A" hpid,
    pyGet_of_not_null p.name "N/A" hname,
    pyGet_of_not_null _ "N/A" hbrn,
    pyGet_of_not_null p.upc "N/A" hupc,
    pyGet_of_not_null p.price "N/A" hprice]
  rfl

/-- C3, amended: for every record whose present fields are non-null, the
normalizer produces a row in which every column holds a string (populated
or the sentinel, never Python `None`); identifier, name, brand name,
barcode and price are pulled off the record with sentinel fallback when
absent, and the image collection joins with the "|" delimiter or becomes
the sentinel when empty.  (A null-valued field breaks this — see the
counterexample.) -/
theorem claim_C3 (p : Product) (slug : String) (h : noNulls p = true) :
    ∃ row, buildRow p slug = .ok row
      ∧ (row.all fun kv => kv.2.isSome) = true
      ∧ rowGet row "Product ID" = some (p.product_id.getD "N/A")
      ∧ rowGet row "Product Name" = some (p.name.getD "N/A")
      ∧ rowGet row "Brand Name" = some (brandNameNA p)
      ∧ rowGet row "Barcode (EAN/UPC)" = some (p.upc.getD "N/A")
      ∧ rowGet row "Price" = some (p.price.getD "N/A")
      ∧ rowGet row "Product Images" = some (imagesCol p) := by
  obtain ⟨ln, -, hrow⟩ := buildRow_ok p slug h
  refine ⟨rowOf p slug ln (sizeSpec p), hrow, ?_, ?_, ?_, ?_, ?_, ?_, ?_⟩
  · simp [rowOf]
  · simp [rowOf, rowGet, List.lookup]
  · simp [rowOf, rowGet, List.lookup]
  · simp [rowOf, rowGet, List.lookup]
  · simp [rowOf, rowGet, List.lookup]
  · simp [rowOf, rowGet, List.lookup]
  · simp [rowOf, rowGet, List.lookup]

/-- A record whose `product_id` key holds a null value. -/
def rowCERecord : Product := { product_id := Field.null }

/-- C3 counterexample: with a null `product_id` the normalizer still
succeeds, but the "Product ID" cell of the produced row holds Python
`None` — not a string and not the sentinel — refuting the claim that
every field of every produced row resolves to a string. -/
theorem claim_C3_counterexample :
    rowProbe (buildRow rowCERecord "x") "Product ID" = some none := by decide

/-- A concrete well-formed record for the C3 witness. -/
def rowWitnessRecord : Product :=
  { product_id := Field.val "42", name := Field.val "Gentle Wash",
    images := Field.val ["u1", "u2"] }

/-- C3 witness: the amended claim applied to a concrete record. -/
theorem claim_C3_witness :
    ∃ row, buildRow rowWitnessRecord "slug1" = .ok row
      ∧ (row.all fun kv => kv.2.isSome) = true
      ∧ rowGet row "Product ID" = some (rowWitnessRecord.product_id.getD "N/A")
      ∧ rowGet row "Product Name" = some (rowWitnessRecord.name.getD "N/A")
      ∧ rowGet row "Brand Name" = some (brandNameNA rowWitnessRecord)
      ∧ rowGet row "Barcode (EAN/UPC)"
          = some (rowWitnessRecord.upc.getD "N/A")
      ∧ rowGet row "Price" = some (rowWitnessRecord.price.getD "N/A")
      ∧ rowGet row "Product Images" = some (imagesCol rowWitnessRecord) :=
  claim_C3 rowWitnessRecord "slug1" (by decide)

end Scraper
